import Mathlib

/-!
Verification of the DuckHunt-JS scene orchestrator (src/src/modules/Stage.js).

Shallow embedding of the `Stage` class: the roster of ducks, the dog, the
coordinate scaling, hit resolution (`shotsFired`), the intro animation
(`preLevelAnimation`), the flee sequence (`flyAway`), teardown
(`cleanUpDucks`) and the activity queries (`ducksAlive`, `ducksActive`,
`dogActive`, `isActive`).

Coordinates are rationals.  `Duck` and `Dog` internals live in modules that
are consumed here only through their interface; those parts are modelled
from the spec and are marked as such in their doc comments.  Commands a
duck or the dog receives are recorded in an ordered log so that the order
in which `Stage` issues them is observable.
-/

namespace DuckHunt

/-- A 2-D point (PIXI.Point), with rational coordinates. -/
structure Point where
  x : ℚ
  y : ℚ
  deriving DecidableEq, Repr

/-- Squared Euclidean distance between two points. -/
def dist2 (p q : Point) : ℚ :=
  (p.x - q.x) ^ 2 + (p.y - q.y) ^ 2

/-- Modelled from the spec: `Utils.pointDistance` (src/libs/utils, not under
src/) is the Euclidean distance; the strict comparison `distance < 60` of
`Stage.shotsFired` is expressed on squared distances (`dist2 < 60^2 = 3600`),
which is equivalent for nonnegative distances and keeps us inside ℚ. -/
def hitTest (duckPos world : Point) : Bool :=
  dist2 duckPos world < 3600

/-- A deferred action sitting in a duck's timeline queue.  The only action
`Stage` ever enqueues is the trigger of the dog's retrieve behaviour
(`shotsFired`, line 191). -/
inductive TimelineAction where
  | dogRetrieve
  deriving DecidableEq, Repr

/-- A command issued by `Stage` to a duck, in the order received. -/
inductive DuckCmd where
  | randomFlight (speed : ℚ)
  | shot
  | stopAndClearTimeline
  | flyTo (p : Point)
  deriving DecidableEq, Repr

/-- The two visual variants `addDucks` alternates between. -/
inductive DuckColor where
  | red
  | black
  deriving DecidableEq, Repr

/-- Modelled from the spec: the `Duck` entity (src/modules/Duck.js, not under
src/) as seen through its contract: a world position, an `alive` flag, an
`isActive()` flag (`active`, true while any animation is running), the
ordered timeline queue of deferred actions, plus an `id` standing for object
identity and a log of the commands `Stage` issued to it. -/
structure Duck where
  id : Nat
  color : DuckColor
  position : Point
  alive : Bool
  active : Bool
  timeline : List TimelineAction
  log : List DuckCmd
  deriving DecidableEq, Repr

/-- A command issued by `Stage` to the dog, in the order received. -/
inductive DogCmd where
  | sniff (startPoint endPoint : Point)
  | find
  | retrieve
  | laugh
  deriving DecidableEq, Repr

/-- Modelled from the spec: the `Dog` helper character (src/modules/Dog.js,
not under src/) as seen through its contract: an `isActive()` flag and the
log of behaviour commands `Stage` issued to it. -/
structure Dog where
  active : Bool
  log : List DogCmd
  deriving DecidableEq, Repr

/-- A child of the stage container, in draw order (index 0 drawn first,
i.e. at the back). Ducks are identified by their id. -/
inductive Child where
  | tree
  | background
  | dogChild
  | flash
  | hud
  | duckChild (id : Nat)
  deriving DecidableEq, Repr

/-- The state of the `Stage` container: the duck roster, the dog, the two
scale components set by `scaleToWindow`, the flash overlay's visibility and
the ordered child list of the container.  `nextId` models the freshness of
object identities for newly constructed ducks. -/
structure Stage where
  ducks : List Duck
  dog : Dog
  scaleX : ℚ
  scaleY : ℚ
  flashVisible : Bool
  children : List Child
  nextId : Nat
  deriving DecidableEq, Repr

/-- MAX_X (Stage.js line 11). -/
def MAX_X : ℚ := 800

/-- MAX_Y (Stage.js line 12). -/
def MAX_Y : ℚ := 600

/-- DUCK_POINTS.ORIGIN = (MAX_X / 2, MAX_Y). -/
def DUCK_ORIGIN : Point := ⟨MAX_X / 2, MAX_Y⟩

/-- DOG_POINTS.SNIFF_START = (0, MAX_Y - 130). -/
def SNIFF_START : Point := ⟨0, MAX_Y - 130⟩

/-- DOG_POINTS.SNIFF_END = (MAX_X / 2, MAX_Y - 130). -/
def SNIFF_END : Point := ⟨MAX_X / 2, MAX_Y - 130⟩

/-- The fixed off-field exit point of the flee sequence:
`new PIXI.Point(MAX_X / 2, -500)` (Stage.js line 215). -/
def FLEE_POINT : Point := ⟨MAX_X / 2, -500⟩

/-- `scaleToWindow` (Stage.js lines 85-87):
`this.scale.set(window.innerWidth / MAX_X, window.innerHeight / MAX_Y)`.
The two components are computed independently from the display size. -/
def scaleToWindow (s : Stage) (innerWidth innerHeight : ℚ) : Stage :=
  { s with scaleX := innerWidth / MAX_X, scaleY := innerHeight / MAX_Y }

/-- The coordinate mapping `shotsFired` applies to the click point
(Stage.js lines 183-184): componentwise division by the container scale. -/
def toWorld (s : Stage) (p : Point) : Point :=
  ⟨p.x / s.scaleX, p.y / s.scaleY⟩

/-- The children added by `_setStage` (Stage.js lines 95-109), in draw
order: tree, background, dog, flash screen, hud. -/
def initialChildren : List Child :=
  [Child.tree, Child.background, Child.dogChild, Child.flash, Child.hud]

/-- The stage as built by the constructor (Stage.js lines 46-63): empty
roster, invisible flash screen, children from `_setStage`, scale from
`scaleToWindow` on the window dimensions. -/
def newStage (innerWidth innerHeight : ℚ) : Stage :=
  scaleToWindow
    { ducks := []
      dog := { active := false, log := [] }
      scaleX := 1
      scaleY := 1
      flashVisible := false
      children := initialChildren
      nextId := 0 }
    innerWidth innerHeight

/-- One duck as created in the body of the `addDucks` loop (Stage.js lines
148-163): colour alternating on the loop index parity, placed at
DUCK_POINTS.ORIGIN, then sent on a random flight.  Modelled from the spec:
a freshly constructed target is alive, and `randomFlight` starts its flight
animation (so it reports active). -/
def makeDuck (id i : Nat) (speed : ℚ) : Duck :=
  { id := id
    color := if i % 2 == 0 then DuckColor.red else DuckColor.black
    position := DUCK_ORIGIN
    alive := true
    active := true
    timeline := []
    log := [DuckCmd.randomFlight speed] }

/-- The `addDucks` loop from index `i`, `n` iterations remaining: each new
duck is inserted at draw index 0 (`addChildAt(newDuck, 0)`) and appended to
the roster (`this.ducks.push(newDuck)`). -/
def addDucksFrom (s : Stage) (i n : Nat) (speed : ℚ) : Stage :=
  match n with
  | 0 => s
  | n + 1 =>
    let d := makeDuck s.nextId i speed
    addDucksFrom
      { s with
          ducks := s.ducks ++ [d]
          children := Child.duckChild d.id :: s.children
          nextId := s.nextId + 1 }
      (i + 1) n speed

/-- `addDucks` (Stage.js lines 146-165). -/
def addDucks (s : Stage) (numDucks : Nat) (speed : ℚ) : Stage :=
  addDucksFrom s 0 numDucks speed

/-- The `duck.shot()` transition (invoked at Stage.js line 190).  Modelled
from the spec: it sets `alive = false` and starts the death/impact
animation (so the duck stays active). -/
def shotDuck (d : Duck) : Duck :=
  { d with alive := false, active := true, log := d.log ++ [DuckCmd.shot] }

/-- The body of the `shotsFired` loop (Stage.js lines 186-195) over the
roster: a duck that is alive and within the hit radius of the world point
is shot and gets the dog-retrieve trigger appended to its own timeline;
every other duck is untouched.  Returns the updated roster and the count. -/
def shotLoop (world : Point) : List Duck → List Duck × Nat
  | [] => ([], 0)
  | d :: rest =>
    let r := shotLoop world rest
    if d.alive && hitTest d.position world then
      ({ shotDuck d with timeline := d.timeline ++ [TimelineAction.dogRetrieve] } :: r.1,
        r.2 + 1)
    else
      (d :: r.1, r.2)

/-- `shotsFired` (Stage.js lines 174-197): makes the flash screen visible
(its reset is a fire-and-forget timer), divides the click point in place by
the container scale, then runs the hit loop.  Returns the new stage, the
mutated click point, and the number of ducks shot. -/
def shotsFired (s : Stage) (clickPoint : Point) : Stage × Point × Nat :=
  let world := toWorld s clickPoint
  let r := shotLoop world s.ducks
  ({ s with flashVisible := true, ducks := r.1 }, world, r.2)

/-- `cleanUpDucks` (Stage.js lines 229-234): removes every roster member
from the container and clears the roster. -/
def cleanUpDucks (s : Stage) : Stage :=
  { s with
      children := s.ducks.foldl (fun cs d => cs.erase (Child.duckChild d.id)) s.children
      ducks := [] }

/-! ## The flee sequence (`flyAway`, Stage.js lines 204-223)

The synchronous part issues `laugh` to the dog and, per alive duck,
`stopAndClearTimeline` followed by `flyTo(FLEE_POINT)`, collecting one
pending completion per participating duck.  The asynchronous part is
driven by the ducks' completion callbacks, in an arbitrary order: the
`BPromise.all` barrier fires once the last pending completion arrives,
runs `cleanUpDucks`, and only then resolves the returned promise.  We
model a run as a fold of completion events over an explicit barrier
state, recording an event trace. -/

/-- An observable event of a flee run: a duck's `flyTo` completion
callback firing, the roster teardown running, and the returned promise
resolving. -/
inductive FleeEv where
  | complete (id : Nat)
  | teardown
  | resolve
  deriving DecidableEq, Repr

/-- The state of an in-flight flee sequence: the stage, the set of duck
ids whose `flyTo` completion is still pending, whether the returned
promise has resolved, and the trace of events so far. -/
structure FleeState where
  stage : Stage
  pending : List Nat
  resolved : Bool
  trace : List FleeEv
  deriving DecidableEq, Repr

/-- The per-duck synchronous action of the `flyAway` loop (Stage.js lines
209-220) on an alive duck: `stopAndClearTimeline()` then
`flyTo(FLEE_POINT)`.  Modelled from the spec: `stopAndClearTimeline`
clears the pending timeline queue, and `flyTo` starts the fly-away
animation (the duck reports active until its completion fires). -/
def fleeDuck (d : Duck) : Duck :=
  { d with
      timeline := []
      active := true
      log := d.log ++ [DuckCmd.stopAndClearTimeline, DuckCmd.flyTo FLEE_POINT] }

/-- The `flyAway` loop over the roster (Stage.js lines 209-220): each
alive duck is sent fleeing and contributes one pending completion
(`duckPromises.push`); ducks that are not alive are skipped entirely.
Returns the updated roster and the pending completion ids in roster
order. -/
def fleeDucksLoop : List Duck → List Duck × List Nat
  | [] => ([], [])
  | d :: rest =>
    let r := fleeDucksLoop rest
    if d.alive then (fleeDuck d :: r.1, d.id :: r.2) else (d :: r.1, r.2)

/-- The synchronous part of `flyAway`: `dog.laugh()`, then the loop over
the roster. -/
def flyAwayStart (s : Stage) : FleeState :=
  let r := fleeDucksLoop s.ducks
  { stage :=
      { s with
          dog := { s.dog with active := true, log := s.dog.log ++ [DogCmd.laugh] }
          ducks := r.1 }
    pending := r.2
    resolved := false
    trace := [] }

/-- Modelled from the spec: a duck's `flyTo` onComplete callback fires when
its fly-away animation has finished, at which point that duck no longer
reports `isActive()`. -/
def duckCompleted (s : Stage) (id : Nat) : Stage :=
  { s with ducks := s.ducks.map (fun d => if d.id = id then { d with active := false } else d) }

/-- The `BPromise.all(...).then(this.cleanUpDucks.bind(this))` barrier
(Stage.js line 222): once no completion is pending and the promise has not
yet resolved, the teardown runs and then the promise resolves. -/
def checkBarrier (fs : FleeState) : FleeState :=
  if fs.pending = [] ∧ fs.resolved = false then
    { fs with
        stage := cleanUpDucks fs.stage
        resolved := true
        trace := fs.trace ++ [FleeEv.teardown, FleeEv.resolve] }
  else fs

/-- One completion event arriving at the barrier: a pending duck id is
marked completed and removed from the pending set (a promise resolves at
most once, so a non-pending id is a no-op), then the barrier is checked. -/
def fleeStep (fs : FleeState) (id : Nat) : FleeState :=
  if id ∈ fs.pending then
    checkBarrier
      { fs with
          stage := duckCompleted fs.stage id
          pending := fs.pending.erase id
          trace := fs.trace ++ [FleeEv.complete id] }
  else fs

/-- Folding a sequence of completion events into the barrier state. -/
def fleeLoop (fs : FleeState) : List Nat → FleeState
  | [] => fs
  | id :: rest => fleeLoop (fleeStep fs id) rest

/-- A whole run of `flyAway`: the synchronous part, the immediate barrier
check (with no alive duck, `BPromise.all([])` resolves with no completion
event), then the completion events in the order `order`. -/
def runFlee (s : Stage) (order : List Nat) : FleeState :=
  fleeLoop (checkBarrier (flyAwayStart s)) order

/-- The ids of the roster members that are alive at the time `flyAway` is
called: exactly the ducks the flee sequence waits on. -/
def fleeParticipants (s : Stage) : List Nat :=
  (s.ducks.filter (fun d => d.alive)).map (fun d => d.id)

/-! ## The intro sequence (`preLevelAnimation`, Stage.js lines 117-138)

Synchronously: `cleanUpDucks()`, then `dog.sniff(...).find(...)`.  When the
find behaviour signals completion, the `onComplete` callback moves the dog
to child index 0 (`setChildIndex(this.dog, 0)`, the back of the draw
order) and resolves the returned promise.  The spec assumes the dog's
completion callback is always eventually invoked, so a whole run is
deterministic. -/

/-- An observable event of an intro run. -/
inductive IntroEv where
  | teardown
  | sniff
  | find
  | findComplete
  | reorderDog
  | resolve
  deriving DecidableEq, Repr

/-- The synchronous part of `preLevelAnimation`: tear down any stale
roster, then script the dog through sniff and find.  Modelled from the
spec: `sniff`/`find` start dog animations, so the dog reports active. -/
def introStart (s : Stage) : Stage :=
  let s1 := cleanUpDucks s
  { s1 with
      dog := { s1.dog with
                 active := true
                 log := s1.dog.log ++ [DogCmd.sniff SNIFF_START SNIFF_END, DogCmd.find] } }

/-- The `findOpts.onComplete` callback (Stage.js lines 129-132):
`setChildIndex(this.dog, 0)` moves the dog to draw index 0 — the back of
the draw order — and the promise resolves.  Modelled from the spec: when
find completes the dog's animation is over, so it no longer reports
active. -/
def introFindComplete (s : Stage) : Stage :=
  { s with
      dog := { s.dog with active := false }
      children := Child.dogChild :: s.children.erase Child.dogChild }

/-- A whole run of `preLevelAnimation`, with its event trace: the
synchronous part, then the find completion (assumed always eventually
signalled), whose callback reorders the dog and then resolves — exactly
one resolution. -/
def runIntro (s : Stage) : Stage × List IntroEv :=
  (introFindComplete (introStart s),
    [IntroEv.teardown, IntroEv.sniff, IntroEv.find,
     IntroEv.findComplete, IntroEv.reorderDog, IntroEv.resolve])

/-- `ducksAlive` (Stage.js lines 242-246): `_some` over the roster on the
`alive` flag. -/
def ducksAlive (s : Stage) : Bool :=
  s.ducks.any (fun d => d.alive)

/-- `ducksActive` (Stage.js lines 254-258): `_some` over the roster on
`isActive()`. -/
def ducksActive (s : Stage) : Bool :=
  s.ducks.any (fun d => d.active)

/-- `dogActive` (Stage.js lines 265-267). -/
def dogActive (s : Stage) : Bool :=
  s.dog.active

/-- `isActive` (Stage.js lines 274-276). -/
def isActive (s : Stage) : Bool :=
  dogActive s || ducksAlive s || ducksActive s

/-! ## Concrete fixtures used to instantiate theorems -/

/-- A duck fixture with the given identity, liveness, activity and
position. -/
def mkDuck (id : Nat) (al ac : Bool) (px py : ℚ) : Duck :=
  { id := id
    color := DuckColor.red
    position := ⟨px, py⟩
    alive := al
    active := ac
    timeline := []
    log := [] }

/-- A stage fixture with unit scale and the given roster, each roster
member also present in the child list. -/
def mkStage (ds : List Duck) : Stage :=
  { ducks := ds
    dog := { active := false, log := [] }
    scaleX := 1
    scaleY := 1
    flashVisible := false
    children := initialChildren ++ ds.map (fun d => Child.duckChild d.id)
    nextId := 50 }

/-- A hit-testing fixture: an alive duck in range of the click, an alive
duck out of range, and a dead duck in range. -/
def exHitStage : Stage :=
  mkStage [mkDuck 0 true true 100 100, mkDuck 1 true true 500 500,
           mkDuck 2 false true 100 100]

/-- A fixture whose only roster member is already dead. -/
def exDeadStage : Stage :=
  mkStage [mkDuck 3 false true 0 0]

end DuckHunt

namespace DuckHunt

/-! ## Helper lemmas -/

theorem shotLoop_count (w : Point) : ∀ l : List Duck,
    (shotLoop w l).2 =
      (l.filter (fun d => d.alive && hitTest d.position w)).length := by
  intro l
  induction l with
  | nil => rfl
  | cons d rest ih =>
    by_cases hc : (d.alive && hitTest d.position w) = true
    · simp [shotLoop, hc, ih]
    · simp [shotLoop, hc, ih]

theorem shotLoop_getElem (w : Point) : ∀ (l : List Duck) (i : Nat),
    (shotLoop w l).1[i]? = (l[i]?).map (fun d =>
      if d.alive && hitTest d.position w
      then { shotDuck d with timeline := d.timeline ++ [TimelineAction.dogRetrieve] }
      else d) := by
  intro l
  induction l with
  | nil => intro i; rfl
  | cons d rest ih =>
    intro i
    by_cases hc : (d.alive && hitTest d.position w) = true
    · have h12 := hc
      rw [Bool.and_eq_true] at h12
      obtain ⟨h1, h2⟩ := h12
      cases i with
      | zero => simp [shotLoop, hc, h1, h2]
      | succ i => simp [shotLoop, hc, ih]
    · cases i with
      | zero =>
        simp [shotLoop, hc]
        rw [if_neg]
        simpa [Bool.and_eq_true] using hc
      | succ i => simp [shotLoop, hc, ih]

theorem addDucksFrom_length (speed : ℚ) :
    ∀ (n : Nat) (s : Stage) (i : Nat),
      (addDucksFrom s i n speed).ducks.length = s.ducks.length + n := by
  intro n
  induction n with
  | zero => intro s i; simp [addDucksFrom]
  | succ n ih =>
    intro s i
    rw [addDucksFrom, ih]
    simp
    omega

theorem addDucksFrom_alive (speed : ℚ) :
    ∀ (n : Nat) (s : Stage) (i : Nat),
      ducksAlive (addDucksFrom s i n speed) = (ducksAlive s || decide (0 < n)) := by
  intro n
  induction n with
  | zero => intro s i; simp [addDucksFrom]
  | succ n ih =>
    intro s i
    rw [addDucksFrom, ih]
    simp [ducksAlive, makeDuck]

theorem fleeDucksLoop_getElem : ∀ (l : List Duck) (i : Nat),
    (fleeDucksLoop l).1[i]? =
      (l[i]?).map (fun d => if d.alive then fleeDuck d else d) := by
  intro l
  induction l with
  | nil => intro i; rfl
  | cons d rest ih =>
    intro i
    by_cases hc : d.alive = true
    · cases i with
      | zero => simp [fleeDucksLoop, hc]
      | succ i => simp [fleeDucksLoop, hc, ih]
    · cases i with
      | zero => simp [fleeDucksLoop, hc]
      | succ i => simp [fleeDucksLoop, hc, ih]

theorem fleeDucksLoop_pending : ∀ l : List Duck,
    (fleeDucksLoop l).2 = (l.filter (fun d => d.alive)).map (fun d => d.id) := by
  intro l
  induction l with
  | nil => rfl
  | cons d rest ih =>
    by_cases hc : d.alive = true
    · simp [fleeDucksLoop, hc, ih]
    · simp [fleeDucksLoop, hc, ih]

theorem flyAwayStart_pending (s : Stage) :
    (flyAwayStart s).pending = fleeParticipants s := by
  have e : (flyAwayStart s).pending = (fleeDucksLoop s.ducks).2 := rfl
  rw [e, fleeDucksLoop_pending, fleeParticipants]

theorem fleeDucksLoop_of_dead : ∀ l : List Duck,
    (∀ d ∈ l, d.alive = false) → fleeDucksLoop l = (l, []) := by
  intro l
  induction l with
  | nil => intro _; rfl
  | cons d rest ih =>
    intro hdead
    have hd : d.alive = false := hdead d (List.mem_cons_self d rest)
    have hrest := ih (fun x hx => hdead x (List.mem_cons_of_mem d hx))
    simp [fleeDucksLoop, hd, hrest]

theorem fleeLoop_resolves : ∀ (order : List Nat) (fs : FleeState),
    order.Perm fs.pending → fs.resolved = false → order ≠ [] →
    (fleeLoop fs order).resolved = true ∧
    (fleeLoop fs order).stage.ducks = [] ∧
    (fleeLoop fs order).trace =
      fs.trace ++ order.map FleeEv.complete ++ [FleeEv.teardown, FleeEv.resolve] := by
  intro order
  induction order with
  | nil => intro fs _ _ hne; exact absurd rfl hne
  | cons id rest ih =>
    intro fs hperm hres _
    have hid : id ∈ fs.pending := hperm.subset (List.mem_cons_self id rest)
    have hrest : rest.Perm (fs.pending.erase id) := by
      have h := hperm.erase id
      rwa [List.erase_cons_head] at h
    by_cases hempty : rest = []
    · subst hempty
      have hpend : fs.pending.erase id = [] := List.Perm.eq_nil hrest.symm
      simp [fleeLoop, fleeStep, hid, checkBarrier, hpend, hres, cleanUpDucks]
    · have hpne : fs.pending.erase id ≠ [] := by
        intro h0
        rw [h0] at hrest
        exact hempty (List.Perm.eq_nil hrest)
      have hstep : fleeStep fs id =
          { stage := duckCompleted fs.stage id
            pending := fs.pending.erase id
            resolved := fs.resolved
            trace := fs.trace ++ [FleeEv.complete id] } := by
        rw [fleeStep, if_pos hid, checkBarrier, if_neg]
        intro hcond
        exact hpne hcond.1
      have h := ih
        { stage := duckCompleted fs.stage id
          pending := fs.pending.erase id
          resolved := fs.resolved
          trace := fs.trace ++ [FleeEv.complete id] }
        hrest hres hempty
      rw [fleeLoop, hstep]
      refine ⟨h.1, h.2.1, ?_⟩
      rw [h.2.2]
      simp

theorem fleeLoop_stuck : ∀ (order : List Nat) (fs : FleeState) (x : Nat),
    x ∈ fs.pending → x ∉ order → fs.resolved = false →
    (fleeLoop fs order).resolved = false ∧ x ∈ (fleeLoop fs order).pending := by
  intro order
  induction order with
  | nil => intro fs x hx _ hres; exact ⟨hres, hx⟩
  | cons id rest ih =>
    intro fs x hx hnot hres
    have hne : x ≠ id := by
      intro h
      exact hnot (h ▸ List.mem_cons_self id rest)
    have hxrest : x ∉ rest := fun h => hnot (List.mem_cons_of_mem id h)
    by_cases hid : id ∈ fs.pending
    · have hx' : x ∈ fs.pending.erase id := (List.mem_erase_of_ne hne).mpr hx
      have hpne : fs.pending.erase id ≠ [] := by
        intro h0
        rw [h0] at hx'
        exact absurd hx' (List.not_mem_nil x)
      have hstep : fleeStep fs id =
          { stage := duckCompleted fs.stage id
            pending := fs.pending.erase id
            resolved := fs.resolved
            trace := fs.trace ++ [FleeEv.complete id] } := by
        rw [fleeStep, if_pos hid, checkBarrier, if_neg]
        intro hcond
        exact hpne hcond.1
      rw [fleeLoop, hstep]
      exact ih _ x hx' hxrest hres
    · have hstep : fleeStep fs id = fs := by rw [fleeStep, if_neg hid]
      rw [fleeLoop, hstep]
      exact ih fs x hx hxrest hres

theorem foldl_erase_sublist {α : Type} [DecidableEq α] :
    ∀ (xs l : List α), (xs.foldl List.erase l).Sublist l := by
  intro xs
  induction xs with
  | nil => intro l; exact List.Sublist.refl l
  | cons y ys ih =>
    intro l
    exact (ih (l.erase y)).trans (List.erase_sublist y l)

theorem foldl_erase_not_mem {α : Type} [DecidableEq α] :
    ∀ (xs l : List α), l.Nodup → ∀ x ∈ xs, x ∉ xs.foldl List.erase l := by
  intro xs
  induction xs with
  | nil => intro l _ x hx; exact absurd hx (List.not_mem_nil x)
  | cons y ys ih =>
    intro l hnd x hx
    rcases List.mem_cons.mp hx with h | h
    · subst h
      intro hmem
      have hsub : (ys.foldl List.erase (l.erase x)).Sublist (l.erase x) :=
        foldl_erase_sublist ys (l.erase x)
      have hmem2 : x ∈ l.erase x := hsub.subset hmem
      rw [hnd.mem_erase_iff] at hmem2
      exact hmem2.1 rfl
    · exact ih (l.erase y) (hnd.erase y) x h

theorem cleanUpDucks_children (s : Stage) :
    (cleanUpDucks s).children =
      (s.ducks.map (fun d => Child.duckChild d.id)).foldl List.erase s.children := by
  rw [cleanUpDucks, List.foldl_map]

/-! ## Claim theorems -/

/-- C3: for every scene state, `isActive()` returns exactly the disjunction
`dogActive() OR ducksAlive() OR ducksActive()`: it is true whenever at
least one of a dog animation, an alive duck, or an animating duck exists,
and false only when all three are absent; every one of the 8 boolean
combinations of the three disjuncts is realizable and evaluates to their
disjunction. -/
theorem isActive_three_way_disjunction :
    (∀ s : Stage, isActive s = true ↔
        dogActive s = true ∨ (∃ d ∈ s.ducks, d.alive = true) ∨
          (∃ d ∈ s.ducks, d.active = true)) ∧
    (∀ a b c : Bool, ∃ s : Stage,
        dogActive s = a ∧ ducksAlive s = b ∧ ducksActive s = c ∧
          isActive s = (a || b || c)) := by
  constructor
  · intro s
    simp [isActive, dogActive, ducksAlive, ducksActive, List.any_eq_true]
    exact or_assoc
  · intro a b c
    refine ⟨{ ducks := [mkDuck 0 b false 0 0, mkDuck 1 false c 0 0]
              dog := { active := a, log := [] }
              scaleX := 1, scaleY := 1, flashVisible := false
              children := [], nextId := 0 }, ?_, ?_, ?_, ?_⟩ <;>
      cases a <;> cases b <;> cases c <;> rfl

/-- C4 counterexample: on a stage that already holds an alive duck,
`addDucks 0` leaves `ducksAlive` true even though `0 > 0` is false, so
"`anyAlive()` becomes true if and only if `n > 0`" fails in the
only-if direction. -/
theorem addTargets_alive_iff_counterexample :
    ducksAlive (addDucks (mkStage [mkDuck 0 true false 0 0]) 0 5) = true ∧
      ¬ (0 > 0) := by
  exact ⟨rfl, by decide⟩

/-- C4 (amended): after `addDucks n speed` the roster size has increased
by exactly `n`, and `ducksAlive` afterwards equals `ducksAlive` before
disjoined with `n > 0`; in particular, when no roster member was alive
beforehand, `ducksAlive` becomes true iff `n > 0`. -/
theorem addDucks_growth_and_alive (s : Stage) (n : Nat) (speed : ℚ) :
    (addDucks s n speed).ducks.length = s.ducks.length + n ∧
    ducksAlive (addDucks s n speed) = (ducksAlive s || decide (0 < n)) :=
  ⟨addDucksFrom_length speed n s 0, addDucksFrom_alive speed n s 0⟩

/-- C9: `shotsFired` mutates the caller's click point in place — after the
call its x and y coordinates have been divided by the current scale
factors (so multiplying back by the scale recovers the original), and the
caller's original point value is not preserved in general. -/
theorem shotsFired_point_mutation (s : Stage) (p : Point)
    (hx : s.scaleX ≠ 0) (hy : s.scaleY ≠ 0) :
    (shotsFired s p).2.1 = ⟨p.x / s.scaleX, p.y / s.scaleY⟩ ∧
    (shotsFired s p).2.1.x * s.scaleX = p.x ∧
    (shotsFired s p).2.1.y * s.scaleY = p.y ∧
    (shotsFired (newStage 1600 600) ⟨100, 100⟩).2.1 ≠ ⟨100, 100⟩ := by
  refine ⟨rfl, ?_, ?_, ?_⟩
  · exact div_mul_cancel₀ p.x hx
  · exact div_mul_cancel₀ p.y hy
  · have e : (shotsFired (newStage 1600 600) ⟨100, 100⟩).2.1 =
        ⟨100 / (1600 / MAX_X), 100 / (600 / MAX_Y)⟩ := rfl
    rw [e]
    intro h
    rw [Point.mk.injEq] at h
    have hx100 := h.1
    norm_num [MAX_X] at hx100

/-- C9 witness: the point mutation at a concrete stage and click point. -/
theorem shotsFired_point_mutation_witness :
    (shotsFired (mkStage []) ⟨6, 8⟩).2.1 =
        ⟨6 / (mkStage []).scaleX, 8 / (mkStage []).scaleY⟩ ∧
    (shotsFired (mkStage []) ⟨6, 8⟩).2.1.x * (mkStage []).scaleX = 6 ∧
    (shotsFired (mkStage []) ⟨6, 8⟩).2.1.y * (mkStage []).scaleY = 8 ∧
    (shotsFired (newStage 1600 600) ⟨100, 100⟩).2.1 ≠ ⟨100, 100⟩ :=
  shotsFired_point_mutation (mkStage []) ⟨6, 8⟩ (by decide) (by decide)

/-- C1: `shotsFired` returns a count equal to the number of roster members
that are alive at the time of the call and whose Euclidean distance to the
coordinate-mapped click point is strictly below the 60-unit hit radius;
each counted member has its `shot()` transition invoked (`alive` becomes
false) and the dog-retrieve trigger appended to its own timeline queue,
while every other member is left untouched. -/
theorem shotsFired_hit_resolution (s : Stage) (p : Point) (i : Nat) (d : Duck)
    (hd : s.ducks[i]? = some d) :
    (shotsFired s p).2.2 =
      (s.ducks.filter (fun x => x.alive && hitTest x.position (toWorld s p))).length ∧
    (shotsFired s p).1.ducks[i]? =
      some (if d.alive && hitTest d.position (toWorld s p)
            then { d with alive := false, active := true,
                          log := d.log ++ [DuckCmd.shot],
                          timeline := d.timeline ++ [TimelineAction.dogRetrieve] }
            else d) := by
  constructor
  · exact shotLoop_count (toWorld s p) s.ducks
  · have e : (shotsFired s p).1.ducks = (shotLoop (toWorld s p) s.ducks).1 := rfl
    rw [e, shotLoop_getElem (toWorld s p) s.ducks i, hd]
    rfl

/-- C1 witness: hit resolution on a concrete three-duck roster (one alive
in range, one alive out of range, one dead in range) — the count is 1 and
the alive in-range duck at roster index 0 is shot and gets the retrieve
trigger queued. -/
theorem shotsFired_hit_resolution_witness :
    (shotsFired exHitStage ⟨130, 130⟩).2.2 =
      (exHitStage.ducks.filter
        (fun x => x.alive && hitTest x.position (toWorld exHitStage ⟨130, 130⟩))).length ∧
    (shotsFired exHitStage ⟨130, 130⟩).1.ducks[0]? =
      some (if (mkDuck 0 true true 100 100).alive &&
               hitTest (mkDuck 0 true true 100 100).position (toWorld exHitStage ⟨130, 130⟩)
            then { mkDuck 0 true true 100 100 with
                     alive := false, active := true,
                     log := (mkDuck 0 true true 100 100).log ++ [DuckCmd.shot],
                     timeline := (mkDuck 0 true true 100 100).timeline ++
                       [TimelineAction.dogRetrieve] }
            else mkDuck 0 true true 100 100) :=
  shotsFired_hit_resolution exHitStage ⟨130, 130⟩ 0 (mkDuck 0 true true 100 100) rfl

/-- C7 counterexample: on an empty roster `shotsFired` does return 0, but
it is not free of other observable effects on the scene state — the flash
overlay, a child of the stage, has its visibility flipped to true. -/
theorem registerHit_empty_flash_counterexample :
    (mkStage []).ducks = [] ∧
    (shotsFired (mkStage []) ⟨1, 2⟩).2.2 = 0 ∧
    (mkStage []).flashVisible = false ∧
    (shotsFired (mkStage []) ⟨1, 2⟩).1.flashVisible = true ∧
    (shotsFired (mkStage []) ⟨1, 2⟩).1 ≠ mkStage [] := by
  refine ⟨rfl, rfl, rfl, rfl, ?_⟩
  intro h
  exact Bool.noConfusion (congrArg Stage.flashVisible h)

/-- C7 (amended): `shotsFired` on an empty roster returns 0 and leaves the
roster, the dog, the children and the scale untouched; its only effects
are the cosmetic flash overlay being made visible and the caller's point
being scaled in place. -/
theorem shotsFired_empty_roster (s : Stage) (p : Point) (h : s.ducks = []) :
    (shotsFired s p).2.2 = 0 ∧
    (shotsFired s p).1 = { s with flashVisible := true } ∧
    (shotsFired s p).2.1 = toWorld s p := by
  obtain ⟨ds, dog, sx, sy, fv, ch, ni⟩ := s
  simp only at h
  subst h
  exact ⟨rfl, rfl, rfl⟩

/-- C7 witness: the empty-roster shot at a concrete stage and point. -/
theorem shotsFired_empty_roster_witness :
    (shotsFired (mkStage []) ⟨7, 9⟩).2.2 = 0 ∧
    (shotsFired (mkStage []) ⟨7, 9⟩).1 = { mkStage [] with flashVisible := true } ∧
    (shotsFired (mkStage []) ⟨7, 9⟩).2.1 = toWorld (mkStage []) ⟨7, 9⟩ :=
  shotsFired_empty_roster (mkStage []) ⟨7, 9⟩ rfl

/-- C8 counterexample: resizing to an 800×1200 display yields scale
components 1 and 2; `toWorld` then maps the click point (100, 100) to
(100, 50), which is not the componentwise division of (100, 100) by any
single uniform scale factor. -/
theorem uniform_scale_counterexample :
    (scaleToWindow (mkStage []) 800 1200).scaleX = 1 ∧
    (scaleToWindow (mkStage []) 800 1200).scaleY = 2 ∧
    toWorld (scaleToWindow (mkStage []) 800 1200) ⟨100, 100⟩ = ⟨100, 50⟩ ∧
    ¬ ∃ f : ℚ, toWorld (scaleToWindow (mkStage []) 800 1200) ⟨100, 100⟩ =
        ⟨100 / f, 100 / f⟩ := by
  have h3 : toWorld (scaleToWindow (mkStage []) 800 1200) ⟨100, 100⟩ = ⟨100, 50⟩ := by
    have e : toWorld (scaleToWindow (mkStage []) 800 1200) ⟨100, 100⟩ =
        ⟨100 / (800 / MAX_X), 100 / (1200 / MAX_Y)⟩ := rfl
    rw [e, Point.mk.injEq]
    norm_num [MAX_X, MAX_Y]
  refine ⟨by norm_num [scaleToWindow, MAX_X], by norm_num [scaleToWindow, MAX_Y], h3, ?_⟩
  rintro ⟨f, hf⟩
  rw [h3, Point.mk.injEq] at hf
  obtain ⟨e1, e2⟩ := hf
  rw [← e1] at e2
  norm_num at e2

/-- C8 (amended): the mapping used by hit resolution divides the click
point componentwise by two independent scale factors — `scaleX =
displayWidth / 800` and `scaleY = displayHeight / 600`, as recomputed by
`scaleToWindow` — so `worldPoint = (clientX·800/displayWidth,
clientY·600/displayHeight)`; a single uniform factor exists only when the
display aspect ratio matches the 800×600 logical field. -/
theorem toWorld_componentwise_two_factors (s : Stage) (w h : ℚ) (p : Point) :
    (scaleToWindow s w h).scaleX = w / MAX_X ∧
    (scaleToWindow s w h).scaleY = h / MAX_Y ∧
    (shotsFired (scaleToWindow s w h) p).2.1 =
      ⟨p.x * MAX_X / w, p.y * MAX_Y / h⟩ := by
  refine ⟨rfl, rfl, ?_⟩
  have e : (shotsFired (scaleToWindow s w h) p).2.1 =
      ⟨p.x / (w / MAX_X), p.y / (h / MAX_Y)⟩ := rfl
  rw [e, Point.mk.injEq]
  constructor <;> rw [div_div_eq_mul_div]

/-- C6: during the flee sequence, every roster member that is alive at
call time has its pending timeline cleared and receives
`stopAndClearTimeline` strictly before the `flyTo` command toward the
fixed off-field exit point `(MAX_X / 2, -500)`; a member that is not
alive at call time is excluded — it is issued no command and is left
unchanged. -/
theorem flyAway_per_duck_commands (s : Stage) (i : Nat) (d : Duck)
    (hd : s.ducks[i]? = some d) :
    (flyAwayStart s).stage.ducks[i]? =
      some (if d.alive
            then { d with timeline := [], active := true,
                          log := d.log ++ [DuckCmd.stopAndClearTimeline,
                                           DuckCmd.flyTo FLEE_POINT] }
            else d) := by
  have e : (flyAwayStart s).stage.ducks = (fleeDucksLoop s.ducks).1 := rfl
  rw [e, fleeDucksLoop_getElem s.ducks i, hd]
  rfl

/-- C6 witness: the per-duck flee commands on the concrete fixture roster,
at the alive duck sitting at roster index 0. -/
theorem flyAway_per_duck_commands_witness :
    (flyAwayStart exHitStage).stage.ducks[0]? =
      some (if (mkDuck 0 true true 100 100).alive
            then { mkDuck 0 true true 100 100 with
                     timeline := [], active := true,
                     log := (mkDuck 0 true true 100 100).log ++
                       [DuckCmd.stopAndClearTimeline, DuckCmd.flyTo FLEE_POINT] }
            else mkDuck 0 true true 100 100) :=
  flyAway_per_duck_commands exHitStage 0 (mkDuck 0 true true 100 100) rfl

/-- C5: every run of the intro sequence first tears down any stale roster
(the roster is empty from the teardown step on), scripts the dog through
sniff followed by find, and when find completes reorders the dog to draw
index 0 — the back of the draw order — strictly before the single
resolution event; two consecutive runs (the second after the first
resolves) both resolve exactly once, with the roster empty after the
first (hence before the second) and after the second. -/
theorem runIntro_sequence (s : Stage) :
    (introStart s).ducks = [] ∧
    (runIntro s).2 = [IntroEv.teardown, IntroEv.sniff, IntroEv.find,
                      IntroEv.findComplete, IntroEv.reorderDog, IntroEv.resolve] ∧
    (runIntro s).2.count IntroEv.resolve = 1 ∧
    (runIntro s).1.dog.log =
      s.dog.log ++ [DogCmd.sniff SNIFF_START SNIFF_END, DogCmd.find] ∧
    (runIntro s).1.children.head? = some Child.dogChild ∧
    (runIntro s).1.ducks = [] ∧
    (runIntro (runIntro s).1).1.ducks = [] ∧
    (runIntro (runIntro s).1).1.children.head? = some Child.dogChild ∧
    (runIntro (runIntro s).1).2.count IntroEv.resolve = 1 :=
  ⟨rfl, rfl, rfl, rfl, rfl, rfl, rfl, rfl, rfl⟩

/-- C2: the future returned by the flee sequence resolves exactly when
every target alive at call time has delivered its fly-away completion —
in every complete run the trace lists all participating completions, then
the roster teardown, then the resolution, in that order; at resolution
the roster is empty; and for any event sequence missing some
participant's completion the future has not resolved. -/
theorem runFlee_barrier_resolution (s : Stage) (order : List Nat)
    (hperm : order.Perm (fleeParticipants s)) :
    (runFlee s order).resolved = true ∧
    (runFlee s order).stage.ducks = [] ∧
    (runFlee s order).trace =
      order.map FleeEv.complete ++ [FleeEv.teardown, FleeEv.resolve] ∧
    ∀ order2 : List Nat, ∀ x ∈ fleeParticipants s, x ∉ order2 →
      (runFlee s order2).resolved = false := by
  have hOnly : ∀ order2 : List Nat, ∀ x ∈ fleeParticipants s, x ∉ order2 →
      (runFlee s order2).resolved = false := by
    intro order2 x hx hnx
    have hne : fleeParticipants s ≠ [] := by
      intro h
      rw [h] at hx
      exact absurd hx (List.not_mem_nil x)
    have hcb : checkBarrier (flyAwayStart s) = flyAwayStart s := by
      rw [checkBarrier, if_neg]
      intro hcond
      exact hne (by rw [← flyAwayStart_pending s]; exact hcond.1)
    rw [runFlee, hcb]
    exact (fleeLoop_stuck order2 (flyAwayStart s) x
      (by rw [flyAwayStart_pending]; exact hx) hnx rfl).1
  by_cases hpart : fleeParticipants s = []
  · have horder : order = [] := List.Perm.eq_nil (hpart ▸ hperm)
    subst horder
    have hpend : (flyAwayStart s).pending = [] := by
      rw [flyAwayStart_pending, hpart]
    have hpend2 : (fleeDucksLoop s.ducks).2 = [] := hpend
    refine ⟨?_, ?_, ?_, hOnly⟩ <;>
      simp [runFlee, fleeLoop, checkBarrier, hpend2, cleanUpDucks, flyAwayStart]
  · have horder : order ≠ [] := by
      intro h
      rw [h] at hperm
      exact hpart (List.Perm.eq_nil hperm.symm)
    have hcb : checkBarrier (flyAwayStart s) = flyAwayStart s := by
      rw [checkBarrier, if_neg]
      intro hcond
      exact hpart (by rw [← flyAwayStart_pending s]; exact hcond.1)
    have h := fleeLoop_resolves order (flyAwayStart s)
      (by rw [flyAwayStart_pending]; exact hperm) rfl horder
    rw [runFlee, hcb]
    refine ⟨h.1, h.2.1, ?_, hOnly⟩
    rw [h.2.2]
    rfl

/-- C2 witness: the flee barrier on the concrete fixture roster, whose
alive ducks are 0 and 1 — completions arriving as 1 then 0 resolve the
future with the documented trace, while the event sequence lacking duck
0's completion leaves it unresolved. -/
theorem runFlee_barrier_resolution_witness :
    (runFlee exHitStage [1, 0]).resolved = true ∧
    (runFlee exHitStage [1, 0]).stage.ducks = [] ∧
    (runFlee exHitStage [1, 0]).trace =
      [FleeEv.complete 1, FleeEv.complete 0, FleeEv.teardown, FleeEv.resolve] ∧
    (runFlee exHitStage [1]).resolved = false := by
  have h := runFlee_barrier_resolution exHitStage [1, 0] (by decide)
  exact ⟨h.1, h.2.1, by rw [h.2.2.1]; rfl,
    h.2.2.2 [1] 0 (by decide) (by decide)⟩

/-- C10: calling the flee sequence when no roster member is alive is a
barrier over zero completions — the returned future still resolves (the
trace is just teardown then resolve), and on resolution every roster
member, the already-dead non-participants included, is removed from the
scene's child list and the roster becomes empty. -/
theorem runFlee_empty_barrier (s : Stage)
    (hAlive : ducksAlive s = false) (hnd : s.children.Nodup) :
    (runFlee s []).resolved = true ∧
    (runFlee s []).stage.ducks = [] ∧
    (runFlee s []).trace = [FleeEv.teardown, FleeEv.resolve] ∧
    ∀ d ∈ s.ducks, Child.duckChild d.id ∉ (runFlee s []).stage.children := by
  have hdead : ∀ d ∈ s.ducks, d.alive = false := by
    intro d hdm
    have h := List.any_eq_false.mp hAlive d hdm
    exact Bool.eq_false_iff.mpr h
  have hloop : fleeDucksLoop s.ducks = (s.ducks, []) := fleeDucksLoop_of_dead s.ducks hdead
  have hrun : runFlee s [] = checkBarrier (flyAwayStart s) := rfl
  have hpend : (flyAwayStart s).pending = [] := by
    have e : (flyAwayStart s).pending = (fleeDucksLoop s.ducks).2 := rfl
    rw [e, hloop]
  have hducks : (flyAwayStart s).stage.ducks = s.ducks := by
    have e : (flyAwayStart s).stage.ducks = (fleeDucksLoop s.ducks).1 := rfl
    rw [e, hloop]
  have hchildren : (flyAwayStart s).stage.children = s.children := rfl
  have hcb : checkBarrier (flyAwayStart s) =
      { stage := cleanUpDucks (flyAwayStart s).stage
        pending := []
        resolved := true
        trace := [FleeEv.teardown, FleeEv.resolve] } := by
    rw [checkBarrier, if_pos ⟨hpend, rfl⟩, hpend]
    rfl
  rw [hrun, hcb]
  refine ⟨rfl, rfl, rfl, ?_⟩
  intro d hdm
  rw [cleanUpDucks_children, hducks, hchildren]
  exact foldl_erase_not_mem (s.ducks.map (fun x => Child.duckChild x.id)) s.children hnd
    (Child.duckChild d.id) (List.mem_map_of_mem _ hdm)

/-- C10 witness: the zero-completion barrier on a stage whose only duck is
dead — the future resolves, the roster empties, and the dead duck's child
is removed from the scene. -/
theorem runFlee_empty_barrier_witness :
    (runFlee exDeadStage []).resolved = true ∧
    (runFlee exDeadStage []).stage.ducks = [] ∧
    (runFlee exDeadStage []).trace = [FleeEv.teardown, FleeEv.resolve] ∧
    Child.duckChild 3 ∉ (runFlee exDeadStage []).stage.children := by
  have h := runFlee_empty_barrier exDeadStage rfl (by decide)
  exact ⟨h.1, h.2.1, h.2.2.1,
    h.2.2.2 (mkDuck 3 false true 0 0) (List.mem_singleton.mpr rfl)⟩

end DuckHunt
